import Mathlib

/-!
Verification of the `fsdk_uid` Rust crate (file `src/lib.rs`): a Snowflake-style
64-bit identifier generator packing a 48-bit millisecond timestamp delta, an
8-bit node identifier and an 8-bit per-node counter into one `i64`.

Modelling conventions:
* An `i64` value is embedded as its two's-complement 64-bit representation, a
  `Nat` in `[0, 2^64)`.  `I64.toInt` recovers the signed value.
* Rust `<<` on `i64` is `I64.shl` (shift of the representation, wrapping mod
  `2^64`); Rust `>>` on `i64` is the arithmetic shift `I64.asr`; `|` and `&`
  are `Nat.lor` / `Nat.land` on representations; `as u8` is `% 2^8`.
* `AtomicU8::fetch_add(1, SeqCst)` in sequential use returns the pre-increment
  value and stores the wrapped successor `(c + 1) % 2^8`.
* The system clock (`fsdkuid_get_current_unix_timestamp_milliseconds`) is an
  external input: generation functions take the clock reading `now : Nat` as a
  parameter, and sequential call traces take a `clock : Nat → Nat` giving the
  reading observed by the k-th call.  The 1 ms sleep taken when the
  pre-increment counter is 0 is modelled by hypotheses relating successive
  clock readings.
* The `panic!` in `FsdkUidGenerator::new` is modelled by `Option`: `none` is
  the panic.
-/

/-- Number of bits of the timestamp-delta field (`FSDK_FSUID_TIMESTAMP_DELTA_BITS`,
`src/lib.rs` line 5). -/
def FSDK_FSUID_TIMESTAMP_DELTA_BITS : Nat := 48

/-- Number of bits of the node-identifier field (`src/lib.rs` line 6). -/
def FSDK_FSUID_NODE_IDENTIFIER_BITS : Nat := 8

/-- Number of bits of the node-counter field (`src/lib.rs` line 7). -/
def FSDK_FSUID_NODE_COUNTER_BITS : Nat := 8

/-- `(1 << FSDK_FSUID_TIMESTAMP_DELTA_BITS) - 1` computed in `u64`
(`src/lib.rs` line 9); no overflow occurs, so plain `Nat` arithmetic is exact. -/
def FSDK_FSUID_MAX_TIMESTAMP_DELTA : Nat :=
  (1 <<< FSDK_FSUID_TIMESTAMP_DELTA_BITS) - 1

/-- `(1 << (BITS-1)) + ((1 << (BITS-1)) - 1)` computed in `u8`
(`src/lib.rs` line 10); no overflow occurs. -/
def FSDK_FSUID_MAX_NODE_IDENTIFIER : Nat :=
  (1 <<< (FSDK_FSUID_NODE_IDENTIFIER_BITS - 1)) +
    ((1 <<< (FSDK_FSUID_NODE_IDENTIFIER_BITS - 1)) - 1)

/-- `(1 << (BITS-1)) + ((1 << (BITS-1)) - 1)` computed in `u8`
(`src/lib.rs` line 11); no overflow occurs. -/
def FSDK_FSUID_MAX_NODE_COUNTER : Nat :=
  (1 <<< (FSDK_FSUID_NODE_COUNTER_BITS - 1)) +
    ((1 <<< (FSDK_FSUID_NODE_COUNTER_BITS - 1)) - 1)

/-- Rust `i64` left shift on the two's-complement representation: shift and
wrap modulo `2^64`. -/
def I64.shl (r k : Nat) : Nat := (r <<< k) % 2 ^ 64

/-- Rust `i64` right shift (arithmetic) on the two's-complement representation:
for a non-negative value it is the logical shift, for a negative value the
vacated high bits are filled with ones. -/
def I64.asr (r k : Nat) : Nat :=
  if r < 2 ^ 63 then r >>> k else (r >>> k) ||| (2 ^ 64 - 2 ^ (64 - k))

/-- Signed value of a two's-complement 64-bit representation. -/
def I64.toInt (r : Nat) : Int :=
  if r < 2 ^ 63 then (r : Int) else (r : Int) - 2 ^ 64

/-- The packing expression of `FsdkUidGenerator::generate_i64` (`src/lib.rs`
lines 47-49):
`(timestamp_delta << (NODE_IDENTIFIER_BITS + NODE_COUNTER_BITS)) | ((node_identifier as i64) << NODE_COUNTER_BITS) | (counter as i64)`,
on `i64` representations.  `timestamp_delta` is the already-masked clock
reading, `node_identifier` and `counter` are `u8` values cast to `i64`. -/
def encode_fsuid (timestamp_delta node_identifier counter : Nat) : Nat :=
  I64.shl timestamp_delta
      (FSDK_FSUID_NODE_IDENTIFIER_BITS + FSDK_FSUID_NODE_COUNTER_BITS) |||
    I64.shl node_identifier FSDK_FSUID_NODE_COUNTER_BITS ||| counter

/-- The `FsdkUid` wrapper struct (`src/lib.rs` lines 62-64): holds one raw
`i64`, embedded as its 64-bit representation. -/
structure FsdkUid where
  fsuid : Nat

/-- `FsdkUid::new` (`src/lib.rs` lines 68-70). -/
def FsdkUid.new (fsuid : Nat) : FsdkUid := { fsuid := fsuid }

/-- `FsdkUid::i64` (`src/lib.rs` lines 72-74). -/
def FsdkUid.i64 (u : FsdkUid) : Nat := u.fsuid

/-- `FsdkUid::timestamp_delta` (`src/lib.rs` lines 76-78):
`(self.fsuid >> (NODE_IDENTIFIER_BITS + NODE_COUNTER_BITS)) & MAX_TIMESTAMP_DELTA as i64`. -/
def FsdkUid.timestamp_delta (u : FsdkUid) : Nat :=
  I64.asr u.fsuid (FSDK_FSUID_NODE_IDENTIFIER_BITS + FSDK_FSUID_NODE_COUNTER_BITS) &&&
    FSDK_FSUID_MAX_TIMESTAMP_DELTA

/-- `FsdkUid::node_identifier` (`src/lib.rs` lines 80-82):
`((self.fsuid >> NODE_COUNTER_BITS) & MAX_NODE_IDENTIFIER as i64) as u8`. -/
def FsdkUid.node_identifier (u : FsdkUid) : Nat :=
  (I64.asr u.fsuid FSDK_FSUID_NODE_COUNTER_BITS &&& FSDK_FSUID_MAX_NODE_IDENTIFIER) % 2 ^ 8

/-- `FsdkUid::node_counter` (`src/lib.rs` lines 84-86):
`(self.fsuid & MAX_NODE_COUNTER as i64) as u8`. -/
def FsdkUid.node_counter (u : FsdkUid) : Nat :=
  (u.fsuid &&& FSDK_FSUID_MAX_NODE_COUNTER) % 2 ^ 8

/-- The `FsdkUidGenerator` struct (`src/lib.rs` lines 20-23): an immutable
node identifier (`u8`) and the current counter value (`AtomicU8`). -/
structure FsdkUidGenerator where
  node_identifier : Nat
  counter : Nat

/-- `FsdkUidGenerator::new` (`src/lib.rs` lines 26-35).  The `panic!` on
`node_identifier > FSDK_FSUID_MAX_NODE_IDENTIFIER` is modelled by `none`. -/
def FsdkUidGenerator.new (node_identifier : Nat) : Option FsdkUidGenerator :=
  if node_identifier > FSDK_FSUID_MAX_NODE_IDENTIFIER then none
  else some { node_identifier := node_identifier, counter := 0 }

/-- `FsdkUidGenerator::generate_i64` (`src/lib.rs` lines 37-52) as a state
transformer.  `now` is the clock reading
`fsdkuid_get_current_unix_timestamp_milliseconds()` observed by this call
(after the conditional 1 ms sleep); the result is the returned raw `i64`
representation together with the generator state after the atomic
`fetch_add(1)` (which wraps modulo `2^8` on `AtomicU8`). -/
def FsdkUidGenerator.generate_i64 (g : FsdkUidGenerator) (now : Nat) :
    Nat × FsdkUidGenerator :=
  let counter := g.counter
  let timestamp_delta := now &&& FSDK_FSUID_MAX_TIMESTAMP_DELTA
  (encode_fsuid timestamp_delta g.node_identifier counter,
    { g with counter := (g.counter + 1) % 2 ^ 8 })

/-- Generator state after `k` sequential calls to `generate_i64`, starting from
the state produced by `FsdkUidGenerator::new` (counter 0), where the k-th call
(0-indexed) observes clock reading `clock k`. -/
def genRun (nid : Nat) (clock : Nat → Nat) : Nat → FsdkUidGenerator
  | 0 => { node_identifier := nid, counter := 0 }
  | k + 1 => ((genRun nid clock k).generate_i64 (clock k)).2

/-- The raw `i64` (representation) returned by the k-th sequential call
(0-indexed) to `generate_i64`. -/
def genId (nid : Nat) (clock : Nat → Nat) (k : Nat) : Nat :=
  ((genRun nid clock k).generate_i64 (clock k)).1

/-! ### Normal forms of the constants and accessors -/

theorem max_timestamp_delta_eq : FSDK_FSUID_MAX_TIMESTAMP_DELTA = 2 ^ 48 - 1 := by decide

theorem max_node_identifier_eq : FSDK_FSUID_MAX_NODE_IDENTIFIER = 2 ^ 8 - 1 := by decide

theorem max_node_counter_eq : FSDK_FSUID_MAX_NODE_COUNTER = 2 ^ 8 - 1 := by decide

theorem encode_fsuid_def (t n c : Nat) :
    encode_fsuid t n c = I64.shl t 16 ||| I64.shl n 8 ||| c := rfl

theorem timestamp_delta_def (x : Nat) :
    (FsdkUid.new x).timestamp_delta = I64.asr x 16 &&& 2 ^ 48 - 1 := by
  rw [FsdkUid.timestamp_delta, max_timestamp_delta_eq]; rfl

theorem node_identifier_def (x : Nat) :
    (FsdkUid.new x).node_identifier = (I64.asr x 8 &&& 2 ^ 8 - 1) % 2 ^ 8 := by
  rw [FsdkUid.node_identifier, max_node_identifier_eq]; rfl

theorem node_counter_def (x : Nat) :
    (FsdkUid.new x).node_counter = (x &&& 2 ^ 8 - 1) % 2 ^ 8 := by
  rw [FsdkUid.node_counter, max_node_counter_eq]; rfl

/-! ### Arithmetic characterisation of encode and the accessors -/

theorem lor_shifted_eq_add (a b k : Nat) (hb : b < 2 ^ k) :
    a * 2 ^ k ||| b = a * 2 ^ k + b := by
  rw [Nat.mul_comm a (2 ^ k), ← Nat.mul_add_lt_is_or hb a]

theorem encode_eq_add (t n c : Nat) (ht : t < 2 ^ 48) (hn : n < 2 ^ 8) (hc : c < 2 ^ 8) :
    encode_fsuid t n c = t * 2 ^ 16 + n * 2 ^ 8 + c := by
  have e1 : I64.shl t 16 = t * 2 ^ 16 := by
    rw [I64.shl, Nat.shiftLeft_eq]
    exact Nat.mod_eq_of_lt (by omega)
  have e2 : I64.shl n 8 = n * 2 ^ 8 := by
    rw [I64.shl, Nat.shiftLeft_eq]
    exact Nat.mod_eq_of_lt (by omega)
  rw [encode_fsuid_def, e1, e2, Nat.lor_assoc, lor_shifted_eq_add n c 8 hc,
    lor_shifted_eq_add t (n * 2 ^ 8 + c) 16 (by omega)]
  omega

theorem asr_and_pow_sub_one (r k m : Nat)
    (hz : (2 ^ 64 - 2 ^ (64 - k)) % 2 ^ m = 0) :
    I64.asr r k &&& 2 ^ m - 1 = (r >>> k) % 2 ^ m := by
  rw [I64.asr]
  split
  · exact Nat.and_pow_two_sub_one_eq_mod _ m
  · rw [Nat.and_distrib_right, Nat.and_pow_two_sub_one_eq_mod,
      Nat.and_pow_two_sub_one_eq_mod, hz, Nat.or_zero]

theorem timestamp_delta_encode (t n c : Nat) (ht : t < 2 ^ 48) (hn : n < 2 ^ 8)
    (hc : c < 2 ^ 8) :
    (FsdkUid.new (encode_fsuid t n c)).timestamp_delta = t := by
  rw [timestamp_delta_def, encode_eq_add t n c ht hn hc,
    asr_and_pow_sub_one _ 16 48 (by decide), Nat.shiftRight_eq_div_pow]
  have h16 : (2 : Nat) ^ 16 = 65536 := by norm_num
  have h48 : (2 : Nat) ^ 48 = 281474976710656 := by norm_num
  have h8 : (2 : Nat) ^ 8 = 256 := by norm_num
  rw [h16, h48] at *
  rw [h8] at hn hc
  omega

theorem node_identifier_encode (t n c : Nat) (ht : t < 2 ^ 48) (hn : n < 2 ^ 8)
    (hc : c < 2 ^ 8) :
    (FsdkUid.new (encode_fsuid t n c)).node_identifier = n := by
  rw [node_identifier_def, encode_eq_add t n c ht hn hc,
    asr_and_pow_sub_one _ 8 8 (by decide), Nat.shiftRight_eq_div_pow]
  have h16 : (2 : Nat) ^ 16 = 65536 := by norm_num
  have h8 : (2 : Nat) ^ 8 = 256 := by norm_num
  rw [h16, h8] at *
  omega

theorem node_counter_encode (t n c : Nat) (ht : t < 2 ^ 48) (hn : n < 2 ^ 8)
    (hc : c < 2 ^ 8) :
    (FsdkUid.new (encode_fsuid t n c)).node_counter = c := by
  rw [node_counter_def, encode_eq_add t n c ht hn hc,
    Nat.and_pow_two_sub_one_eq_mod]
  have h16 : (2 : Nat) ^ 16 = 65536 := by norm_num
  have h8 : (2 : Nat) ^ 8 = 256 := by norm_num
  rw [h16, h8] at *
  omega

/-! ### Sequential generator traces -/

theorem genRun_node_identifier (nid : Nat) (clock : Nat → Nat) (k : Nat) :
    (genRun nid clock k).node_identifier = nid := by
  induction k with
  | zero => rfl
  | succ k ih =>
      show (genRun nid clock k).node_identifier = nid
      exact ih

theorem genRun_counter (nid : Nat) (clock : Nat → Nat) (k : Nat) :
    (genRun nid clock k).counter = k % 2 ^ 8 := by
  induction k with
  | zero => rfl
  | succ k ih =>
      show ((genRun nid clock k).counter + 1) % 2 ^ 8 = (k + 1) % 2 ^ 8
      rw [ih]
      omega

theorem genId_run (nid : Nat) (clock : Nat → Nat) (k : Nat) :
    genId nid clock k =
      encode_fsuid (clock k &&& FSDK_FSUID_MAX_TIMESTAMP_DELTA) nid (k % 2 ^ 8) := by
  show encode_fsuid (clock k &&& FSDK_FSUID_MAX_TIMESTAMP_DELTA)
      (genRun nid clock k).node_identifier (genRun nid clock k).counter = _
  rw [genRun_node_identifier, genRun_counter]

theorem genId_eq (nid : Nat) (clock : Nat → Nat) (k : Nat) (hnid : nid < 2 ^ 8)
    (hck : clock k < 2 ^ 48) :
    genId nid clock k = clock k * 2 ^ 16 + nid * 2 ^ 8 + k % 2 ^ 8 := by
  have hmask : clock k &&& FSDK_FSUID_MAX_TIMESTAMP_DELTA = clock k := by
    rw [max_timestamp_delta_eq, Nat.and_pow_two_sub_one_eq_mod]
    exact Nat.mod_eq_of_lt hck
  rw [genId_run, hmask]
  exact encode_eq_add _ _ _ hck hnid (by omega)

theorem toInt_of_lt (r : Nat) (h : r < 2 ^ 63) : I64.toInt r = (r : Int) := by
  rw [I64.toInt, if_pos h]

theorem toInt_of_ge (r : Nat) (h : ¬r < 2 ^ 63) : I64.toInt r = (r : Int) - 2 ^ 64 := by
  rw [I64.toInt, if_neg h]

/-! ### Claim theorems -/

/-- C9: the maximum-value constants, computed in the source as
`2^(bits-1) + (2^(bits-1) - 1)` (node fields) and `(1 << 48) - 1` (timestamp),
equal the intended bit-mask bounds `2^bits - 1`: `2^48 - 1`, `255` and `255`. -/
theorem max_constants_values :
    FSDK_FSUID_MAX_TIMESTAMP_DELTA = 2 ^ 48 - 1 ∧
    FSDK_FSUID_MAX_NODE_IDENTIFIER = 255 ∧
    FSDK_FSUID_MAX_NODE_COUNTER = 255 := by decide

/-- C3 counterexample: the configured widths are 48, 8 and 8, which sum to 64,
so the claim T + N + C ≤ 63 is false on the code. -/
theorem bit_widths_sum_not_le_63 :
    ¬(FSDK_FSUID_TIMESTAMP_DELTA_BITS + FSDK_FSUID_NODE_IDENTIFIER_BITS +
      FSDK_FSUID_NODE_COUNTER_BITS ≤ 63) := by decide

/-- C3 amended: the three bit widths sum to exactly 64, so the packed fields
fill the entire signed 64-bit integer including the sign bit (which is the top
bit of the 48-bit timestamp field). -/
theorem bit_widths_sum_eq_64 :
    FSDK_FSUID_TIMESTAMP_DELTA_BITS + FSDK_FSUID_NODE_IDENTIFIER_BITS +
      FSDK_FSUID_NODE_COUNTER_BITS = 64 := by decide

/-- C1: for every (t, n, c) with t ≤ MAX_TIMESTAMP_DELTA, n ≤ MAX_NODE_IDENTIFIER
and c ≤ MAX_NODE_COUNTER, the three accessors `timestamp_delta`,
`node_identifier` and `node_counter` decode the identifier produced by the
packing expression of `generate_i64` back to exactly (t, n, c). -/
theorem decode_encode_roundtrip (t n c : Nat)
    (ht : t ≤ FSDK_FSUID_MAX_TIMESTAMP_DELTA)
    (hn : n ≤ FSDK_FSUID_MAX_NODE_IDENTIFIER)
    (hc : c ≤ FSDK_FSUID_MAX_NODE_COUNTER) :
    (FsdkUid.new (encode_fsuid t n c)).timestamp_delta = t ∧
    (FsdkUid.new (encode_fsuid t n c)).node_identifier = n ∧
    (FsdkUid.new (encode_fsuid t n c)).node_counter = c := by
  rw [max_timestamp_delta_eq] at ht
  rw [max_node_identifier_eq] at hn
  rw [max_node_counter_eq] at hc
  exact ⟨timestamp_delta_encode t n c (by omega) (by omega) (by omega),
    node_identifier_encode t n c (by omega) (by omega) (by omega),
    node_counter_encode t n c (by omega) (by omega) (by omega)⟩

/-- C1 witness: the round trip at the concrete triple (1726257270642, 1, 0)
from the crate's known-value test. -/
theorem decode_encode_roundtrip_witness :
    (FsdkUid.new (encode_fsuid 1726257270642 1 0)).timestamp_delta = 1726257270642 ∧
    (FsdkUid.new (encode_fsuid 1726257270642 1 0)).node_identifier = 1 ∧
    (FsdkUid.new (encode_fsuid 1726257270642 1 0)).node_counter = 0 :=
  decode_encode_roundtrip 1726257270642 1 0 (by decide) (by decide) (by decide)

/-- C7: decoding is total over all 64-bit raw values (negative ones included):
each accessor always returns a value inside its field range. -/
theorem decode_total (fsuid : Nat) (h : fsuid < 2 ^ 64) :
    (FsdkUid.new fsuid).timestamp_delta < 2 ^ 48 ∧
    (FsdkUid.new fsuid).node_identifier ≤ 255 ∧
    (FsdkUid.new fsuid).node_counter ≤ 255 := by
  refine ⟨?_, ?_, ?_⟩
  · rw [timestamp_delta_def, asr_and_pow_sub_one _ 16 48 (by decide)]
    omega
  · rw [node_identifier_def]
    omega
  · rw [node_counter_def]
    omega

/-- C7 witness: the accessors stay in range on the representation of -1
(all 64 bits set). -/
theorem decode_total_witness :
    (FsdkUid.new (2 ^ 64 - 1)).timestamp_delta < 2 ^ 48 ∧
    (FsdkUid.new (2 ^ 64 - 1)).node_identifier ≤ 255 ∧
    (FsdkUid.new (2 ^ 64 - 1)).node_counter ≤ 255 :=
  decode_total (2 ^ 64 - 1) (by decide)

/-- C10: because the three field widths fill all 64 bits, re-encoding the three
decoded fields with the packing expression reproduces every 64-bit raw value
exactly, negative values included. -/
theorem encode_decode_identity (fsuid : Nat) (h : fsuid < 2 ^ 64) :
    encode_fsuid (FsdkUid.new fsuid).timestamp_delta
      (FsdkUid.new fsuid).node_identifier (FsdkUid.new fsuid).node_counter = fsuid := by
  rw [timestamp_delta_def, node_identifier_def, node_counter_def,
    asr_and_pow_sub_one _ 16 48 (by decide), asr_and_pow_sub_one _ 8 8 (by decide),
    Nat.and_pow_two_sub_one_eq_mod, Nat.shiftRight_eq_div_pow, Nat.shiftRight_eq_div_pow]
  rw [encode_eq_add _ _ _ (by omega) (by omega) (by omega)]
  omega

/-- C10 witness: the decode/re-encode identity at the representation of -1. -/
theorem encode_decode_identity_witness :
    encode_fsuid (FsdkUid.new (2 ^ 64 - 1)).timestamp_delta
      (FsdkUid.new (2 ^ 64 - 1)).node_identifier (FsdkUid.new (2 ^ 64 - 1)).node_counter =
      2 ^ 64 - 1 :=
  encode_decode_identity (2 ^ 64 - 1) (by decide)

/-- C2 counterexample: t = 2^47 is within the claimed valid range
(t ≤ MAX_TIMESTAMP_DELTA = 2^48 - 1), yet with node identifier 0 and counter 0
the generated i64 is negative (its sign bit is set): the value is -2^63. -/
theorem generate_sign_bit_cex :
    2 ^ 47 ≤ FSDK_FSUID_MAX_TIMESTAMP_DELTA ∧
    I64.toInt ((FsdkUidGenerator.mk 0 0).generate_i64 (2 ^ 47)).1 < 0 := by
  constructor
  · decide
  · decide

/-- C2 amended: the generated i64 is non-negative provided the timestamp delta
stays below 2^47 (so the top bit of the 48-bit timestamp field, which lands on
the i64 sign bit, is clear); node identifier and counter range over their full
fields. -/
theorem generate_nonneg (t n c : Nat) (ht : t ≤ 2 ^ 47 - 1)
    (hn : n ≤ FSDK_FSUID_MAX_NODE_IDENTIFIER) (hc : c ≤ FSDK_FSUID_MAX_NODE_COUNTER) :
    0 ≤ I64.toInt ((FsdkUidGenerator.mk n c).generate_i64 t).1 := by
  rw [max_node_identifier_eq] at hn
  rw [max_node_counter_eq] at hc
  show 0 ≤ I64.toInt (encode_fsuid (t &&& FSDK_FSUID_MAX_TIMESTAMP_DELTA) n c)
  have hmask : t &&& FSDK_FSUID_MAX_TIMESTAMP_DELTA = t := by
    rw [max_timestamp_delta_eq, Nat.and_pow_two_sub_one_eq_mod]
    exact Nat.mod_eq_of_lt (by omega)
  rw [hmask, encode_eq_add t n c (by omega) (by omega) (by omega),
    toInt_of_lt _ (by omega)]
  exact Int.natCast_nonneg _

/-- C2 witness: a realistic timestamp gives a non-negative identifier. -/
theorem generate_nonneg_witness :
    0 ≤ I64.toInt ((FsdkUidGenerator.mk 1 0).generate_i64 1726257270642).1 :=
  generate_nonneg 1726257270642 1 0 (by decide) (by decide) (by decide)

/-- C8: over u8 arguments, `FsdkUidGenerator::new` panics (modelled as `none`)
exactly when the argument exceeds MAX_NODE_IDENTIFIER (a vacuous case, since
MAX_NODE_IDENTIFIER = 255 is the largest u8), and otherwise returns a generator
holding that node identifier with counter 0, including at the maximum 255. -/
theorem new_boundary (node_identifier : Nat) (h : node_identifier < 2 ^ 8) :
    (FSDK_FSUID_MAX_NODE_IDENTIFIER < node_identifier →
      FsdkUidGenerator.new node_identifier = none) ∧
    (node_identifier ≤ FSDK_FSUID_MAX_NODE_IDENTIFIER →
      FsdkUidGenerator.new node_identifier =
        some { node_identifier := node_identifier, counter := 0 }) := by
  constructor
  · intro hgt
    rw [FsdkUidGenerator.new, if_pos hgt]
  · intro hle
    rw [FsdkUidGenerator.new, if_neg (Nat.not_lt.mpr hle)]

/-- C8 witness: construction succeeds at the maximum node identifier 255. -/
theorem new_boundary_witness :
    FsdkUidGenerator.new 255 = some { node_identifier := 255, counter := 0 } :=
  (new_boundary 255 (by decide)).2 (by decide)

/-- C5: two generators constructed with distinct node identifiers (and any
counter states and clock readings) never return equal raw values from
`generate_i64`. -/
theorem cross_node_no_collision (n1 n2 c1 c2 now1 now2 : Nat)
    (hn1 : n1 ≤ FSDK_FSUID_MAX_NODE_IDENTIFIER)
    (hn2 : n2 ≤ FSDK_FSUID_MAX_NODE_IDENTIFIER)
    (hc1 : c1 < 2 ^ 8) (hc2 : c2 < 2 ^ 8) (hne : n1 ≠ n2) :
    ((FsdkUidGenerator.mk n1 c1).generate_i64 now1).1 ≠
      ((FsdkUidGenerator.mk n2 c2).generate_i64 now2).1 := by
  rw [max_node_identifier_eq] at hn1 hn2
  have hmask1 : now1 &&& FSDK_FSUID_MAX_TIMESTAMP_DELTA < 2 ^ 48 := by
    rw [max_timestamp_delta_eq, Nat.and_pow_two_sub_one_eq_mod]; omega
  have hmask2 : now2 &&& FSDK_FSUID_MAX_TIMESTAMP_DELTA < 2 ^ 48 := by
    rw [max_timestamp_delta_eq, Nat.and_pow_two_sub_one_eq_mod]; omega
  intro heq
  have e1 : (FsdkUid.new ((FsdkUidGenerator.mk n1 c1).generate_i64 now1).1).node_identifier
      = n1 :=
    node_identifier_encode _ n1 c1 hmask1 (by omega) hc1
  have e2 : (FsdkUid.new ((FsdkUidGenerator.mk n2 c2).generate_i64 now2).1).node_identifier
      = n2 :=
    node_identifier_encode _ n2 c2 hmask2 (by omega) hc2
  rw [heq] at e1
  exact hne (e1.symm.trans e2)

/-- C5 witness: nodes 0 and 1, both at counter 0 and clock reading 0,
return distinct raw values. -/
theorem cross_node_no_collision_witness :
    ((FsdkUidGenerator.mk 0 0).generate_i64 0).1 ≠
      ((FsdkUidGenerator.mk 1 0).generate_i64 0).1 :=
  cross_node_no_collision 0 1 0 0 0 0 (by decide) (by decide) (by decide) (by decide)
    (by decide)

/-- C6: the k-th sequential call to `generate_i64` on a fresh generator
(0-indexed here; the claim's 1-indexed k corresponds to index k - 1) returns an
identifier whose node_counter field is k % 256 and whose node_identifier field
is the constructor argument, for every clock sequence; in particular call index
256 (the wrap) decodes to counter 0, index 257 to counter 1, with the node
identifier unchanged. -/
theorem sequence_counter_fields (nid : Nat) (clock : Nat → Nat) (k : Nat)
    (hnid : nid ≤ FSDK_FSUID_MAX_NODE_IDENTIFIER) :
    (FsdkUid.new (genId nid clock k)).node_counter = k % 2 ^ 8 ∧
    (FsdkUid.new (genId nid clock k)).node_identifier = nid := by
  rw [max_node_identifier_eq] at hnid
  have hmask : clock k &&& FSDK_FSUID_MAX_TIMESTAMP_DELTA < 2 ^ 48 := by
    rw [max_timestamp_delta_eq, Nat.and_pow_two_sub_one_eq_mod]; omega
  rw [genId_run]
  exact ⟨node_counter_encode _ _ _ hmask (by omega) (by omega),
    node_identifier_encode _ _ _ hmask (by omega) (by omega)⟩

/-- C6 witness: at the wrap call (index 256, the 257th call) the decoded counter
is 0 and the node identifier is still the constructor argument 1. -/
theorem sequence_counter_fields_witness :
    (FsdkUid.new (genId 1 (fun _ => 0) 256)).node_counter = 256 % 2 ^ 8 ∧
    (FsdkUid.new (genId 1 (fun _ => 0) 256)).node_identifier = 1 :=
  sequence_counter_fields 1 (fun _ => 0) 256 (by decide)

/-- Clock-reading sequence used to analyse the ordering guarantee: strictly
monotone (so every call, wrap calls included, observes a reading strictly
greater than all earlier ones), but crossing 2^47 between the first and second
call. -/
def cexClock : Nat → Nat := fun k => if k = 0 then 2 ^ 47 - 1 else 2 ^ 47 + k

/-- C4 counterexample: with node identifier 0 and clock readings `cexClock` —
which are monotone, and at every call whose pre-increment counter is 0 strictly
greater than every earlier reading — the raw i64 of the second call is
nevertheless smaller than that of the first: the timestamp delta crossing 2^47
sets the i64 sign bit, so the sequence is not strictly increasing. -/
theorem generate_strict_mono_cex :
    (∀ a b, a ≤ b → cexClock a ≤ cexClock b) ∧
    (∀ k, (genRun 0 cexClock k).counter = 0 → ∀ a, a < k → cexClock a < cexClock k) ∧
    I64.toInt (genId 0 cexClock 1) < I64.toInt (genId 0 cexClock 0) := by
  refine ⟨?_, ?_, ?_⟩
  · intro a b hab
    simp only [cexClock]
    split <;> split <;> omega
  · intro k _ a hak
    simp only [cexClock]
    split <;> split <;> omega
  · decide

/-- C4 amended: for a single generator called sequentially, if up to call j the
clock readings are non-decreasing, every call whose pre-increment counter is 0
observes a reading strictly greater than all earlier readings (the effect of
the forced 1 ms sleep), and every reading stays below 2^47 (so the sign bit of
the packed i64 stays clear), then the raw i64 identifiers strictly increase,
including across a counter wraparound. -/
theorem generate_strict_mono (nid : Nat) (clock : Nat → Nat) (i j : Nat)
    (hnid : nid ≤ FSDK_FSUID_MAX_NODE_IDENTIFIER) (hij : i < j)
    (hmono : ∀ a b, a ≤ b → b ≤ j → clock a ≤ clock b)
    (hwrap : ∀ k, k ≤ j → (genRun nid clock k).counter = 0 →
      ∀ a, a < k → clock a < clock k)
    (hreal : ∀ k, k ≤ j → clock k < 2 ^ 47) :
    I64.toInt (genId nid clock i) < I64.toInt (genId nid clock j) := by
  have hnid8 : nid < 2 ^ 8 := by rw [max_node_identifier_eq] at hnid; omega
  have hval : ∀ k, k ≤ j → genId nid clock k = clock k * 2 ^ 16 + nid * 2 ^ 8 + k % 2 ^ 8 :=
    fun k hk => genId_eq nid clock k hnid8 (by have := hreal k hk; omega)
  have hstep : ∀ k, k + 1 ≤ j → genId nid clock k < genId nid clock (k + 1) := by
    intro k hk1
    rw [hval k (by omega), hval (k + 1) hk1]
    have hm : clock k ≤ clock (k + 1) := hmono k (k + 1) (by omega) hk1
    by_cases hw : (k + 1) % 2 ^ 8 = 0
    · have hlt : clock k < clock (k + 1) := by
        refine hwrap (k + 1) hk1 ?_ k (by omega)
        rw [genRun_counter]
        exact hw
      omega
    · omega
  have hmain : ∀ a b, a < b → b ≤ j → genId nid clock a < genId nid clock b := by
    intro a b
    induction b with
    | zero => intro hab _; exact absurd hab (Nat.not_lt_zero a)
    | succ b ih =>
        intro hab hbj
        rcases Nat.lt_succ_iff_lt_or_eq.mp hab with h | h
        · exact lt_trans (ih h (Nat.le_of_succ_le hbj)) (hstep b hbj)
        · subst h
          exact hstep a hbj
  have hnat := hmain i j hij (le_refl j)
  have hi63 : genId nid clock i < 2 ^ 63 := by
    rw [hval i (by omega)]
    have := hreal i (by omega)
    omega
  have hj63 : genId nid clock j < 2 ^ 63 := by
    rw [hval j (le_refl j)]
    have := hreal j (le_refl j)
    omega
  rw [toInt_of_lt _ hi63, toInt_of_lt _ hj63]
  exact_mod_cast hnat

/-- C4 witness: with the identity clock (one new millisecond per call) the
first and third identifiers of node 1 are strictly ordered. -/
theorem generate_strict_mono_witness :
    I64.toInt (genId 1 (fun k => k) 0) < I64.toInt (genId 1 (fun k => k) 2) :=
  generate_strict_mono 1 (fun k => k) 0 2 (by decide) (by decide)
    (fun a b hab _ => hab) (fun k _ _ a ha => ha) (fun k hk => by show k < 2 ^ 47; omega)
